import Mathlib

/-!
Verification of the quilox-auth authentication/authorization pipeline.

The JavaScript sources are shallowly embedded below:
- the JWT payload is an association list of named claims (`Claims`);
- the jsonwebtoken library calls (`jwt.sign` / `jwt.verify`) are modelled
  symbolically: a signature is perfect (it is valid exactly when it was
  produced over the same payload with the same secret), and signing with
  the `expiresIn` option embeds `iat` and `exp` into the payload, as the
  library does at the call sites in the sources;
- each Express middleware becomes a pure function from its inputs to an
  explicit outcome value recording the HTTP status and body it sends, or
  that it calls `next()`.
-/

namespace QuiloxAuth

/-- A JSON value stored in a JWT claim: the sources only ever store strings
(user id, role) and numbers (iat, exp) in token payloads. -/
inductive JVal
  | str (s : String)
  | num (n : Int)
deriving DecidableEq

/-- A JWT payload / JS object holding identity claims: a list of named fields,
looked up by first match (later duplicates are shadowed, as in a JS object). -/
abbrev Claims := List (String × JVal)

/-- Reading property `k` of a JS object: the first binding of `k`, when any. -/
def getField : Claims → String → Option JVal
  | [], _ => none
  | (k', v) :: rest, k => if k' = k then some v else getField rest k

/-- Dropping every binding of property `k`. -/
def removeField : Claims → String → Claims
  | [], _ => []
  | (k', v) :: rest, k =>
    if k' = k then removeField rest k else (k', v) :: removeField rest k

/-- Assigning property `k` of a JS object (overrides any previous binding). -/
def setField (c : Claims) (k : String) (v : JVal) : Claims :=
  (k, v) :: removeField c k

theorem getField_removeField (c : Claims) (q k : String) (h : k ≠ q) :
    getField (removeField c q) k = getField c k := by
  induction c with
  | nil => rfl
  | cons e rest ih =>
    obtain ⟨k', v⟩ := e
    simp only [removeField, getField]
    by_cases hq : k' = q
    · rw [if_pos hq, ih, if_neg (fun hk => h (hk.symm.trans hq))]
    · rw [if_neg hq]
      simp only [getField]
      by_cases hk : k' = k
      · rw [if_pos hk, if_pos hk]
      · rw [if_neg hk, if_neg hk, ih]

theorem getField_setField_same (c : Claims) (k : String) (v : JVal) :
    getField (setField c k v) k = some v := by
  simp [setField, getField]

theorem getField_setField_ne (c : Claims) (k k' : String) (v : JVal)
    (h : k' ≠ k) : getField (setField c k v) k' = getField c k' := by
  simp only [setField, getField]
  rw [if_neg (fun hk => h hk.symm)]
  exact getField_removeField c k k' h

/-- A token as it travels on the wire: either a structurally valid JWT
(payload and signature segments parse) or an unparseable string. -/
inductive WireToken
  | wellFormed (payload : Claims) (sig : Nat × Claims)
  | garbage (s : String)
deriving DecidableEq

/-- Failure kinds of token verification distinguished by the spec. -/
inductive TokenFailureKind
  | expiredToken
  | invalidSignature
  | malformedToken
deriving DecidableEq

/-- Result of `jwt.verify`: the decoded payload, or one of the failure kinds. -/
inductive VerifyResult
  | ok (payload : Claims)
  | err (kind : TokenFailureKind)
deriving DecidableEq

/-- The timestamp jwt.sign computes claims from: a truthy (non-zero)
numeric `iat` already present in the payload is kept and used, otherwise
the current time - the library evaluates `payload.iat || now`. -/
def signTimestamp (payload : Claims) (now : Int) : Int :=
  match getField payload "iat" with
  | some (.num i) => if i = 0 then now else i
  | _ => now

/-- Payload actually embedded when `jwt.sign(payload, secret, expiresIn)`
succeeds: the library sets `iat` to the signing timestamp and `exp` to
that timestamp plus expiresIn. -/
def signedPayload (payload : Claims) (now expiresIn : Int) : Claims :=
  setField (setField payload "iat" (.num (signTimestamp payload now)))
    "exp" (.num (signTimestamp payload now + expiresIn))

/-- The token produced when `jwt.sign(payload, secret, expiresIn)`
succeeds: a perfect symmetric signature over the embedded payload. -/
def jwtSign (payload : Claims) (secret : Nat) (now expiresIn : Int) : WireToken :=
  .wellFormed (signedPayload payload now expiresIn)
    (secret, signedPayload payload now expiresIn)

/-- Whether a decoded payload is expired at instant `now`: the `exp` claim,
when present and numeric, is compared against the clock (expired when
current time is at or past the embedded expiry). -/
def expiredAt (p : Claims) (now : Int) : Bool :=
  match getField p "exp" with
  | some (.num e) => decide (e ≤ now)
  | _ => false

/-- Model of `jwt.verify(token, secret)` as called in the sources: an
unparseable token is malformed; a signature that does not recompute over
the parsed payload with this secret is invalid; an embedded expiry at or
before the clock is expired; otherwise decoding succeeds and returns the
embedded payload. -/
def jwtVerify (t : WireToken) (secret : Nat) (now : Int) : VerifyResult :=
  match t with
  | .garbage _ => .err .malformedToken
  | .wellFormed p sig =>
    if sig = (secret, p) then
      if expiredAt p now then .err .expiredToken else .ok p
    else .err .invalidSignature

/-- Embedding of `verifyToken` from jwtUtils: a missing or non-string token
(modelled as `none`) yields null, and every verification error is caught
and collapsed to null (`Option.none`). -/
def verifyToken (token : Option WireToken) (secret : Nat) (now : Int) :
    Option Claims :=
  match token with
  | none => none
  | some t =>
    match jwtVerify t secret now with
    | .ok p => some p
    | .err _ => none

/-- Embedding of the auth controller's `generateToken(id)` helper: it signs
the payload consisting of the single field `id`. -/
def generateTokenController (id : JVal) (secret : Nat) (now expiresIn : Int) :
    WireToken :=
  jwtSign [("id", id)] secret now expiresIn

theorem verifyToken_jwtSign (k : Claims) (secret : Nat) (now t now' : Int) :
    verifyToken (some (jwtSign k secret now t)) secret now' =
      if signTimestamp k now + t ≤ now' then none
      else some (signedPayload k now t) := by
  have hexp : expiredAt (signedPayload k now t) now' =
      decide (signTimestamp k now + t ≤ now') := by
    simp [expiredAt, signedPayload, getField_setField_same]
  simp only [verifyToken, jwtSign, jwtVerify, if_pos rfl, hexp]
  by_cases h : signTimestamp k now + t ≤ now'
  · simp [h]
  · simp [h]

/-- What the JavaScript property read `permissions[userRole]` can produce
on the `permissions` object literal: one of the literal's own values (an
array of permission strings), a truthy non-array inherited from
Object.prototype, or `undefined`. -/
inductive PermProp
  | arr (ps : List String)
  | inherited
  | missing
deriving DecidableEq

/-- Property names every plain object literal inherits from
Object.prototype: reading them yields a truthy non-array value. -/
def objectPrototypeProps : List String :=
  ["constructor", "hasOwnProperty", "isPrototypeOf", "propertyIsEnumerable",
   "toLocaleString", "toString", "valueOf", "__proto__", "__defineGetter__",
   "__defineSetter__", "__lookupGetter__", "__lookupSetter__"]

/-- Whether a property read produced one of the catalog's own arrays. -/
def isArr : PermProp → Bool
  | .arr _ => true
  | _ => false

/-- Embedding of the property read `permissions[role]` on the object
literal of rbacMiddleware.js: the literal's own keys first, then the
inherited Object.prototype properties, then `undefined`. -/
def permissions (role : String) : PermProp :=
  if role = "admin" then
    .arr ["create:user", "read:user", "update:user", "delete:user",
          "create:post", "read:post", "update:post", "delete:post",
          "view:dashboard", "manage:all"]
  else if role = "editor" then
    .arr ["create:post", "read:post", "update:post", "view:own:stats"]
  else if role = "viewer" then
    .arr ["read:post"]
  else if role ∈ objectPrototypeProps then .inherited
  else .missing

/-- The role string carried by `req.user.role`: present only when the
attached claims bind `role` to a string (a numeric role would stringify to
a digit key, which names neither a catalog entry nor an inherited
property, behaving like the absent case below). -/
def roleOf (user : Claims) : Option String :=
  match getField user "role" with
  | some (.str r) => some r
  | _ => none

/-- The catalog read `permissions[userRole]`: an absent (`undefined`) role
stringifies to the key "undefined", which is neither a catalog entry nor
an inherited property. -/
def lookupPermissions (role : Option String) : PermProp :=
  match role with
  | some r => permissions r
  | none => .missing

/-- Outcome of an RBAC middleware invocation: an HTTP response
`res.status(status).json(error)`, a call to `next()`, or an exception
escaping the middleware (answered with a 500 by the framework's default
error handler). -/
inductive RbacResult
  | respond (status : Nat) (error : String)
  | next
  | thrown (err : String)
deriving DecidableEq

/-- Embedding of `rbacMiddleware(requiredPermissions)` applied to a request
whose attached identity is `user` (`none` when `req.user` is absent or
null): 401 without an identity; 403 when the property read is `undefined`
(the only falsy case); a TypeError when it produced a truthy non-array,
since `.includes` is not a function on it; `next()` when the role holds
`manage:all`; otherwise `next()` exactly when every required permission is
held, else 403. -/
def rbacMiddleware (requiredPermissions : List String) (user : Option Claims) :
    RbacResult :=
  match user with
  | none => .respond 401 "Authentication required."
  | some u =>
    match lookupPermissions (roleOf u) with
    | .missing => .respond 403 "Your role does not have any permissions defined."
    | .inherited => .thrown "userPermissions.includes is not a function"
    | .arr userPermissions =>
      if "manage:all" ∈ userPermissions then .next
      else if ∀ p ∈ requiredPermissions, p ∈ userPermissions then .next
      else .respond 403 "Access denied. You do not have the required permissions."

/-- JavaScript `header.split(' ')` on the underlying characters: split at
every space, keeping empty segments, with `[""]` for the empty string. -/
def splitOnSpace : List Char → List (List Char)
  | [] => [[]]
  | c :: cs =>
    if c = ' ' then [] :: splitOnSpace cs
    else
      match splitOnSpace cs with
      | [] => [[c]]
      | s :: rest => (c :: s) :: rest

/-- Embedding of `authHeader.split(' ')[1]` followed by the `!token` guard
in middleware/authMiddleware.js: the second space-separated field when it
exists and is non-empty, else `none`. -/
def extractToken (header : String) : Option String :=
  match splitOnSpace header.data with
  | _ :: t :: _ => if t = [] then none else some (String.mk t)
  | _ => none

/-- The header-handling stage of the authentication middleware, up to the
point where token verification would run: 401 responses for a missing
header and for a header without a non-empty second field, otherwise the
extracted token string is passed on to verification. -/
inductive HeaderStep
  | missingHeader
  | malformedHeader
  | verifyTok (token : String)
deriving DecidableEq

/-- Embedding of the header checks of `exports.verifyToken` in
middleware/authMiddleware.js (the same shape appears in
src/middleware/authMiddleware.js): absent header, then token extraction,
then hand-off to `jwt.verify`. -/
def headerStep (authHeader : Option String) : HeaderStep :=
  match authHeader with
  | none => .missingHeader
  | some h =>
    match extractToken h with
    | none => .malformedHeader
    | some t => .verifyTok t

/-- The opaque digest of the external bcrypt library, parameterized by the
per-call random salt: modelled as a constructor, injective in both the
salt and the credential, never failing. -/
structure CredentialHash where
  salt : Nat
  digestOf : String
deriving DecidableEq

/-- Model of `bcrypt.hash(password, SALT_ROUNDS)` with the per-call random
salt made an explicit parameter. -/
def bcryptHash (salt : Nat) (password : String) : CredentialHash :=
  ⟨salt, password⟩

/-- Embedding of `hashPassword` from passwordUtils (src/unnamed/part_002):
a non-string credential (modelled as `none`) is rejected with the source's
error message; every string, including the empty one, is hashed. -/
def hashPassword (password : Option String) (salt : Nat) :
    Except String CredentialHash :=
  match password with
  | none => .error "Password must be a string."
  | some s => .ok (bcryptHash salt s)

theorem splitOnSpace_no_space (l : List Char) (h : ' ' ∉ l) :
    splitOnSpace l = [l] := by
  induction l with
  | nil => rfl
  | cons c cs ih =>
    have hc : c ≠ ' ' := fun hc => h (hc ▸ List.mem_cons_self c cs)
    have hcs : ' ' ∉ cs := fun hm => h (List.mem_cons_of_mem c hm)
    simp [splitOnSpace, hc, ih hcs]

theorem splitOnSpace_cons_sep (s t : List Char) (h : ' ' ∉ s) :
    splitOnSpace (s ++ ' ' :: t) = s :: splitOnSpace t := by
  induction s with
  | nil => simp [splitOnSpace]
  | cons c s' ih =>
    have hc : c ≠ ' ' := fun hc => h (hc ▸ List.mem_cons_self c _)
    have hs' : ' ' ∉ s' := fun hm => h (List.mem_cons_of_mem c hm)
    simp [splitOnSpace, hc, ih hs']

/-- Claim C1: for an identity whose role is present in the permission
catalog and whose permission set does not contain the universal grant
marker, rbacMiddleware calls next() if and only if every member of the
required permission set is contained in the role's permission set, and
when at least one required permission is missing it responds 403 -
conjunctive, not disjunctive, semantics. -/
theorem rbac_conjunctive (u : Claims) (r : String) (ps req : List String)
    (hr : roleOf u = some r) (hps : permissions r = .arr ps)
    (hm : "manage:all" ∉ ps) :
    (rbacMiddleware req (some u) = .next ↔ ∀ p ∈ req, p ∈ ps) ∧
    ((¬ ∀ p ∈ req, p ∈ ps) →
      rbacMiddleware req (some u) =
        .respond 403 "Access denied. You do not have the required permissions.") := by
  have hlp : lookupPermissions (roleOf u) = .arr ps := by
    rw [hr]; simpa [lookupPermissions] using hps
  by_cases hall : ∀ p ∈ req, p ∈ ps
  · exact ⟨by simp [rbacMiddleware, hlp, hm, hall], fun h => absurd hall h⟩
  · exact ⟨by simp [rbacMiddleware, hlp, hm, hall],
      fun _ => by simp [rbacMiddleware, hlp, hm, hall]⟩

/-- Witness for C1: the editor role, which lacks the universal grant
marker, passes a check for a permission it holds. -/
theorem rbac_conjunctive_witness :
    rbacMiddleware ["create:post"] (some [("role", JVal.str "editor")]) =
      RbacResult.next :=
  (rbac_conjunctive [("role", JVal.str "editor")] "editor" _ ["create:post"]
    rfl rfl (by decide)).1.mpr (by decide)

/-- Claim C2: an identity whose role's permission set contains the
universal grant marker manage:all passes rbacMiddleware for every required
permission set, including permissions that appear nowhere in the catalog. -/
theorem rbac_universal_grant (u : Claims) (r : String) (ps req : List String)
    (hr : roleOf u = some r) (hps : permissions r = .arr ps)
    (hm : "manage:all" ∈ ps) :
    rbacMiddleware req (some u) = .next := by
  have hlp : lookupPermissions (roleOf u) = .arr ps := by
    rw [hr]; simpa [lookupPermissions] using hps
  simp [rbacMiddleware, hlp, hm]

/-- Witness for C2: the admin role passes a check for a permission absent
from the entire catalog. -/
theorem rbac_universal_grant_witness :
    rbacMiddleware ["fly:rocket"] (some [("role", JVal.str "admin")]) =
      RbacResult.next :=
  rbac_universal_grant [("role", JVal.str "admin")] "admin" _ ["fly:rocket"]
    rfl rfl (by decide)

/-- Counterexample to C3: the role "constructor" has no entry in the
permission catalog, yet rbacMiddleware does not respond 403 for it - the
property read resolves through the prototype chain to a truthy non-array,
and the includes call throws a TypeError, which the framework answers
with a 500. -/
theorem rbac_proto_role_throws_cex :
    permissions "constructor" = PermProp.inherited ∧
    rbacMiddleware [] (some [("role", JVal.str "constructor")]) =
      RbacResult.thrown "userPermissions.includes is not a function" ∧
    rbacMiddleware [] (some [("role", JVal.str "constructor")]) ≠
      RbacResult.respond 403 "Your role does not have any permissions defined." := by
  decide

/-- Claim C3 as amended: an identity whose role has no entry in the
permission catalog never passes rbacMiddleware, but the failure mode
splits: an unknown role naming an inherited Object.prototype property
makes the includes call throw a TypeError (surfaced as a 500), while
every other unknown role is answered 403 for every required permission
set, including the empty one. -/
theorem rbac_unknown_role_never_passes (u : Claims) (r : String)
    (req : List String) (hr : roleOf u = some r)
    (hcat : isArr (permissions r) = false) :
    (r ∉ objectPrototypeProps →
      rbacMiddleware req (some u) =
        .respond 403 "Your role does not have any permissions defined.") ∧
    (r ∈ objectPrototypeProps →
      rbacMiddleware req (some u) =
        .thrown "userPermissions.includes is not a function") ∧
    rbacMiddleware req (some u) ≠ .next := by
  have ha : r ≠ "admin" := by
    intro h; rw [h] at hcat; exact absurd hcat (by decide)
  have he : r ≠ "editor" := by
    intro h; rw [h] at hcat; exact absurd hcat (by decide)
  have hv : r ≠ "viewer" := by
    intro h; rw [h] at hcat; exact absurd hcat (by decide)
  by_cases hproto : r ∈ objectPrototypeProps
  · have hlp : lookupPermissions (roleOf u) = .inherited := by
      rw [hr]; simp [lookupPermissions, permissions, ha, he, hv, hproto]
    exact ⟨fun hn => absurd hproto hn, fun _ => by simp [rbacMiddleware, hlp],
      by simp [rbacMiddleware, hlp]⟩
  · have hlp : lookupPermissions (roleOf u) = .missing := by
      rw [hr]; simp [lookupPermissions, permissions, ha, he, hv, hproto]
    exact ⟨fun _ => by simp [rbacMiddleware, hlp],
      fun hp => absurd hp hproto, by simp [rbacMiddleware, hlp]⟩

/-- Witness for the amended C3: a role unknown to the catalog and not an
inherited property name is forbidden even for the empty required
permission set, while an inherited property name makes the middleware
throw. -/
theorem rbac_unknown_role_never_passes_witness :
    rbacMiddleware [] (some [("role", JVal.str "ghost")]) =
      RbacResult.respond 403 "Your role does not have any permissions defined." ∧
    rbacMiddleware [] (some [("role", JVal.str "toString")]) =
      RbacResult.thrown "userPermissions.includes is not a function" :=
  ⟨(rbac_unknown_role_never_passes [("role", JVal.str "ghost")] "ghost" []
      rfl (by decide)).1 (by decide),
   (rbac_unknown_role_never_passes [("role", JVal.str "toString")] "toString" []
      rfl (by decide)).2.1 (by decide)⟩

/-- Claim C4: a request with no identity attached is answered 401 by
rbacMiddleware for every required permission set; the permission
evaluation is never reached, so a missing AuthenticationGate never
silently permits the operation. -/
theorem rbac_no_identity_unauthenticated (req : List String) :
    rbacMiddleware req none = .respond 401 "Authentication required." := rfl

/-- Claim C5: a token minted by the auth controller's generateToken embeds
only the user's id, so whenever the authentication middleware attaches its
decoded payload as the identity, rbacMiddleware responds 403 with the
role-has-no-permissions message for every required permission set. -/
theorem minted_token_role_undefined_forbidden (id : JVal) (secret : Nat)
    (now ttl now' : Int) (req : List String) (p : Claims)
    (h : verifyToken (some (generateTokenController id secret now ttl))
        secret now' = some p) :
    rbacMiddleware req (some p) =
      .respond 403 "Your role does not have any permissions defined." := by
  simp only [generateTokenController] at h
  rw [verifyToken_jwtSign] at h
  have hts : signTimestamp [("id", id)] now = now := rfl
  rw [hts] at h
  by_cases hx : now + ttl ≤ now'
  · rw [if_pos hx] at h; cases h
  · rw [if_neg hx] at h
    have hp := Option.some.inj h
    have hrole : roleOf (signedPayload [("id", id)] now ttl) = none := by
      have h2 : getField (signedPayload [("id", id)] now ttl) "role" =
          getField [("id", id)] "role" := by
        simp only [signedPayload]
        rw [getField_setField_ne _ _ _ _ (by decide),
          getField_setField_ne _ _ _ _ (by decide)]
      have h3 : getField [("id", id)] "role" = none := rfl
      simp [roleOf, h2, h3]
    rw [← hp]
    simp [rbacMiddleware, lookupPermissions, hrole]

/-- Witness for C5: a freshly minted controller token for user u1 is
decoded successfully, and the attached payload is forbidden by
rbacMiddleware. -/
theorem minted_token_role_undefined_forbidden_witness :
    rbacMiddleware ["read:post"]
        (some [("exp", JVal.num 3600), ("iat", JVal.num 0),
               ("id", JVal.str "u1")]) =
      RbacResult.respond 403 "Your role does not have any permissions defined." :=
  minted_token_role_undefined_forbidden (JVal.str "u1") 7 0 3600 0
    ["read:post"] _ (by decide)

/-- Counterexample to C7: a credential header with the wrong scheme word
is not rejected as malformed - the middleware extracts the second field
and proceeds to token verification with it. -/
theorem scheme_not_checked_cex :
    headerStep (some "Basic abc123") = HeaderStep.verifyTok "abc123" ∧
    headerStep (some "Basic abc123") ≠ HeaderStep.malformedHeader := by
  decide

/-- Claim C7 as amended: the middleware never checks the scheme word.
Every header decomposes as either a string with no space, or a space-free
scheme word followed by a space and a remainder whose leading space-free
segment `tok` is the second space-separated field (the remainder after it
is empty or starts with the next space). The header is accepted with that
field handed to verification - whatever the scheme word - exactly when
the field is non-empty; a header whose second field is empty, or which
has no space at all, is rejected as malformed. -/
theorem headerStep_second_field (h : String) (a t : List Char)
    (rest2 : List (List Char)) (hs : splitOnSpace h.data = a :: t :: rest2)
    (ht : t ≠ []) : headerStep (some h) = .verifyTok (String.mk t) := by
  simp [headerStep, extractToken, hs, ht]

theorem headerStep_empty_second_field (h : String) (a : List Char)
    (rest2 : List (List Char)) (hs : splitOnSpace h.data = a :: [] :: rest2) :
    headerStep (some h) = .malformedHeader := by
  simp [headerStep, extractToken, hs]

theorem header_scheme_ignored (scheme tok rest : List Char)
    (h1 : ' ' ∉ scheme) (h2 : ' ' ∉ tok)
    (hr : rest = [] ∨ rest.head? = some ' ') :
    (tok ≠ [] →
      headerStep (some (String.mk (scheme ++ ' ' :: (tok ++ rest)))) =
        .verifyTok (String.mk tok)) ∧
    (tok = [] →
      headerStep (some (String.mk (scheme ++ ' ' :: (tok ++ rest)))) =
        .malformedHeader) ∧
    headerStep (some (String.mk scheme)) = .malformedHeader := by
  have hnone : headerStep (some (String.mk scheme)) = .malformedHeader := by
    simp [headerStep, extractToken, splitOnSpace_no_space _ h1]
  rcases hr with hre | hre
  · subst hre
    have hs : splitOnSpace
        (String.mk (scheme ++ ' ' :: (tok ++ []))).data =
        scheme :: tok :: [] := by
      show splitOnSpace (scheme ++ ' ' :: (tok ++ [])) = _
      rw [List.append_nil, splitOnSpace_cons_sep _ _ h1,
        splitOnSpace_no_space _ h2]
    refine ⟨fun h3 => headerStep_second_field _ _ _ _ hs h3, fun h3 => ?_,
      hnone⟩
    rw [h3] at hs ⊢
    exact headerStep_empty_second_field _ _ _ hs
  · cases rest with
    | nil => exact absurd hre (by simp)
    | cons c r' =>
      have hc : c = ' ' := by simpa using hre
      subst hc
      have hs : splitOnSpace
          (String.mk (scheme ++ ' ' :: (tok ++ ' ' :: r'))).data =
          scheme :: tok :: splitOnSpace r' := by
        show splitOnSpace (scheme ++ ' ' :: (tok ++ ' ' :: r')) = _
        rw [splitOnSpace_cons_sep _ _ h1, splitOnSpace_cons_sep _ _ h2]
      refine ⟨fun h3 => headerStep_second_field _ _ _ _ hs h3, fun h3 => ?_,
        hnone⟩
      rw [h3] at hs ⊢
      exact headerStep_empty_second_field _ _ _ hs

/-- Witness for the amended C7: a Basic-scheme header with a trailing
extra field reaches verification carrying its second field, and a
Bearer header with a double space (empty second field) is malformed. -/
theorem header_scheme_ignored_witness :
    headerStep (some (String.mk
        ("Basic".data ++ ' ' :: ("a".data ++ ' ' :: "b".data)))) =
      HeaderStep.verifyTok (String.mk "a".data) ∧
    headerStep (some (String.mk
        ("Bearer".data ++ ' ' :: ([] ++ ' ' :: "x".data)))) =
      HeaderStep.malformedHeader :=
  ⟨(header_scheme_ignored "Basic".data "a".data (' ' :: "b".data)
      (by decide) (by decide) (Or.inr rfl)).1 (by decide),
   (header_scheme_ignored "Bearer".data [] (' ' :: "x".data)
      (by decide) (by decide) (Or.inr rfl)).2.1 rfl⟩

/-- Counterexample to C10: the empty credential passes the string type
check and is hashed - a CredentialHash is produced from it. -/
theorem empty_credential_hashed_cex :
    hashPassword (some "") 0 = .ok (bcryptHash 0 "") := rfl

/-- Claim C10 as amended: credential hashing fails with InvalidInput only
for a non-string credential; every string credential, including the empty
one, is hashed. -/
theorem hash_only_checks_string (s : String) (salt : Nat) :
    hashPassword (some s) salt = .ok (bcryptHash salt s) ∧
    hashPassword none salt = .error "Password must be a string." :=
  ⟨rfl, rfl⟩

end QuiloxAuth
